import Mathlib

/-!
A shallow embedding of `blocky.py` (the domain-blocking daemon) in Lean 4,
with theorems checking its natural-language specification against the code.

Conventions of the embedding:
* Python strings become `String`; Python lists become `List`.
* Python exceptions become `Except`: a raising code path returns `.error`.
* Subprocess invocations (`ipset ...`) are modelled by an explicit
  environment function supplied by the caller, and the sequence of commands
  the code issues is returned as a trace, so that "which kernel mutations
  were performed" is a provable statement.
-/

namespace Blocky

/-- Decidable equality of `Except` values, for evaluating the model on
concrete inputs. -/
instance {ε α : Type} [DecidableEq ε] [DecidableEq α] : DecidableEq (Except ε α) := fun x y =>
  match x, y with
  | .ok a, .ok b =>
    if h : a = b then .isTrue (by rw [h]) else .isFalse (fun hc => by cases hc; exact h rfl)
  | .error a, .error b =>
    if h : a = b then .isTrue (by rw [h]) else .isFalse (fun hc => by cases hc; exact h rfl)
  | .ok _, .error _ => .isFalse (fun hc => by cases hc)
  | .error _, .ok _ => .isFalse (fun hc => by cases hc)

/-! ### Utilities (`flatten`, `parse_comma_separated`) -/

/-- A Python value as seen by the `flatten` utility: either a string
(`basestring`, not iterated into) or a list of further values.  This mirrors
the runtime type-sniffing `hasattr(x, '__iter__') and not isinstance(x,
basestring)` of the source. -/
inductive PyVal where
  | str (s : String)
  | lst (xs : List PyVal)

mutual

/-- One step of the source's `flatten`: a string (`basestring`, not iterated
into) is kept whole, a list is flattened recursively. -/
def flattenVal : PyVal → List String
  | .str s => [s]
  | .lst xs => flatten xs

/-- Source `flatten(lst)`: recursively flatten a Python list of
values into a flat list of strings. -/
def flatten : List PyVal → List String
  | [] => []
  | x :: xs => flattenVal x ++ flatten xs

end

/-- Flattening a flat list of strings is the identity. -/
theorem flatten_map_str (l : List String) : flatten (l.map PyVal.str) = l := by
  induction l with
  | nil => rfl
  | cons a as ih => simp [flatten, flattenVal, ih]

/-- Flattening a list of lists of strings (the shape produced by the list
comprehension in `DetectIPAddresses.iplist`) is concatenation. -/
theorem flatten_map_lst (ls : List (List String)) :
    flatten (ls.map (fun l => PyVal.lst (l.map PyVal.str))) = ls.flatten := by
  induction ls with
  | nil => rfl
  | cons l ls ih =>
    simp only [List.map_cons, flatten, flattenVal, List.flatten_cons]
    rw [flatten_map_str l, ih]

/-- Python's `str.strip()`: drop whitespace from both ends of the string.
Modelled on the character list of the string so that it evaluates inside
the kernel. -/
def pyStrip (s : String) : String :=
  String.mk (((s.data.dropWhile Char.isWhitespace).reverse.dropWhile
    Char.isWhitespace).reverse)

/-- Python's `s.split(sep)` for a one-character separator, on character
lists.  `''.split(',') == ['']`: splitting the empty string yields one
empty field. -/
def pySplitChar (sep : Char) : List Char → List (List Char)
  | [] => [[]]
  | c :: rest =>
    let r := pySplitChar sep rest
    if c = sep then [] :: r
    else
      match r with
      | [] => [[c]]
      | g :: gs => (c :: g) :: gs

/-- Source `parse_comma_separated(s)`:
`[x.strip() for x in s.split(',')]`.  Note that Python's `''.split(',')`
is `['']`. -/
def parse_comma_separated (s : String) : List String :=
  (pySplitChar ',' s.data).map (fun cs => pyStrip (String.mk cs))

/-! ### Python string ordering (`list.sort()` on address strings)

Python compares strings lexicographically by character code point; this is
also the order of Lean's `String` `LinearOrder`, but the latter is phrased
with string iterators and does not evaluate inside the kernel.  We define
the same order structurally on character lists and prove it equal to the
standard `String` order. -/

/-- Code-point lexicographic `≤` on character lists. -/
def pyCharsLe : List Char → List Char → Bool
  | [], _ => true
  | _ :: _, [] => false
  | a :: as, b :: bs =>
    if a < b then true
    else if b < a then false
    else pyCharsLe as bs

/-- Code-point lexicographic `≤` on strings, as Python's string comparison. -/
def pyLe (a b : String) : Prop :=
  pyCharsLe a.data b.data = true

instance : DecidableRel pyLe := fun a b =>
  inferInstanceAs (Decidable (pyCharsLe a.data b.data = true))

/-- Python's `list.sort()` on a list of strings. -/
def pySort (l : List String) : List String :=
  List.insertionSort pyLe l

/-- The structural comparison agrees with the lexicographic order on
character lists (`List.Lex`). -/
theorem pyCharsLe_iff_not_lex :
    ∀ as bs : List Char, pyCharsLe as bs = true ↔ ¬ List.Lex (· < ·) bs as := by
  intro as
  induction as with
  | nil =>
    intro bs
    simp only [pyCharsLe, true_iff]
    intro h
    cases h
  | cons a as ih =>
    intro bs
    cases bs with
    | nil =>
      simp only [pyCharsLe, Bool.false_eq_true, false_iff, not_not]
      exact List.Lex.nil
    | cons b bs =>
      rcases lt_trichotomy a b with hab | hab | hab
      · simp only [pyCharsLe, if_pos hab, true_iff]
        intro h
        cases h with
        | cons h => exact lt_irrefl a hab
        | rel h => exact lt_asymm hab h
      · subst hab
        simp only [pyCharsLe, if_neg (lt_irrefl a)]
        rw [ih bs]
        constructor
        · intro h hl
          cases hl with
          | cons h' => exact h h'
          | rel h' => exact lt_irrefl a h'
        · intro h hl
          exact h (List.Lex.cons hl)
      · simp only [pyCharsLe, if_neg (lt_asymm hab), if_pos hab, Bool.false_eq_true,
          false_iff, not_not]
        exact List.Lex.rel hab

/-- The relation `pyLe` is the standard `String` order of Mathlib. -/
theorem pyLe_iff_le (a b : String) : pyLe a b ↔ a ≤ b := by
  rw [pyLe, pyCharsLe_iff_not_lex, String.le_iff_toList_le, ← not_lt]
  rfl

instance : IsTotal String pyLe :=
  ⟨fun a b => by
    rw [pyLe_iff_le, pyLe_iff_le]
    exact le_total a b⟩

instance : IsTrans String pyLe :=
  ⟨fun a b c hab hbc => by
    rw [pyLe_iff_le] at *
    exact le_trans hab hbc⟩

/-- The output of `pySort` is sorted in the standard `String` order. -/
theorem pySort_sorted (l : List String) : (pySort l).Sorted (· ≤ ·) :=
  (List.sorted_insertionSort pyLe l).imp (fun h => (pyLe_iff_le _ _).mp h)

/-- The output of `pySort` is a permutation of its input. -/
theorem pySort_perm (l : List String) : List.Perm (pySort l) l :=
  List.perm_insertionSort pyLe l

/-! ### `DetectIPAddresses` (AddressResolver) -/

/-- The outcome of `resolver.Resolver().query(fqdn, 'A')` for one domain:
either a list of A-record addresses, an `NXDOMAIN` ("name does not exist")
error, or any other resolution failure (timeout, no answer, servfail, ...)
carrying its message. -/
inductive ResolveResult where
  | ok (addrs : List String)
  | nxdomain
  | failure (e : String)
deriving DecidableEq

/-- Whether a resolution outcome is a non-`NXDOMAIN` failure. -/
def ResolveResult.isFailure : ResolveResult → Bool
  | .failure _ => true
  | _ => false

/-- The addresses a resolution outcome contributes in the source's
aggregation: a successful answer contributes its addresses, `NXDOMAIN`
contributes the empty list (it is swallowed), a failure contributes
nothing because it aborts the call (this projection is only meaningful on
failure-free inputs). -/
def ResolveResult.okAddrs : ResolveResult → List String
  | .ok addrs => addrs
  | .nxdomain => []
  | .failure _ => []

/-- Source `DetectIPAddresses._resolve_catch_err(fqdn)`: run the query; `NXDOMAIN`
is caught and turned into the empty answer `[]`; every other exception
propagates. -/
def resolve_catch_err : ResolveResult → Except String (List String)
  | .ok addrs => .ok addrs
  | .nxdomain => .ok []
  | .failure e => .error e

/-- The list comprehension `[list(resolver(fqdn)) for fqdn in self.fqdns]`:
resolve each domain left to right; the first uncaught exception propagates
and aborts the whole comprehension. -/
def resolveAll : List ResolveResult → Except String (List (List String))
  | [] => .ok []
  | r :: rs =>
    match resolve_catch_err r with
    | .error e => .error e
    | .ok addrs =>
      match resolveAll rs with
      | .error e => .error e
      | .ok rest => .ok (addrs :: rest)

/-- Source `DetectIPAddresses.iplist()`.  The per-domain answers are flattened
(`flatten`), `filter(None, ...)` keeps every element because DNS rdata
objects are always truthy, `.address` projection is the identity in this
model (answers are already address strings), `list(set(...))` deduplicates
(modelled by `List.dedup`, the sorted output being independent of the
intermediate order), and `.sort()` sorts the address strings
lexicographically. -/
def iplist (results : List ResolveResult) : Except String (List String) :=
  match resolveAll results with
  | .error e => .error e
  | .ok perDomain =>
    .ok (pySort (flatten (perDomain.map (fun l => PyVal.lst (l.map PyVal.str)))).dedup)

/-- On a failure-free input, the comprehension succeeds and yields each
domain's contribution: its addresses for an answer, `[]` for `NXDOMAIN`. -/
theorem resolveAll_ok_of_no_failure :
    ∀ rs : List ResolveResult, (∀ r ∈ rs, r.isFailure = false) →
      resolveAll rs = .ok (rs.map ResolveResult.okAddrs) := by
  intro rs
  induction rs with
  | nil => intro _; rfl
  | cons r rs ih =>
    intro h
    have hr := h r (List.mem_cons_self r rs)
    have hrest := ih (fun x hx => h x (List.mem_cons_of_mem r hx))
    cases r with
    | ok addrs => simp [resolveAll, resolve_catch_err, hrest, ResolveResult.okAddrs]
    | nxdomain => simp [resolveAll, resolve_catch_err, hrest, ResolveResult.okAddrs]
    | failure e => simp [ResolveResult.isFailure] at hr

/-- Conversely, a successful run of the comprehension means the input was
failure-free and the output is the per-domain contributions. -/
theorem resolveAll_eq_ok :
    ∀ rs ls, resolveAll rs = .ok ls → ls = rs.map ResolveResult.okAddrs := by
  intro rs
  induction rs with
  | nil => intro ls h; cases h; rfl
  | cons r rs ih =>
    intro ls h
    cases r with
    | ok addrs =>
      rw [resolveAll, resolve_catch_err] at h
      cases hrec : resolveAll rs with
      | error e => rw [hrec] at h; cases h
      | ok rest =>
        rw [hrec] at h
        cases h
        rw [List.map_cons, ← ih rest hrec, ResolveResult.okAddrs]
    | nxdomain =>
      rw [resolveAll, resolve_catch_err] at h
      cases hrec : resolveAll rs with
      | error e => rw [hrec] at h; cases h
      | ok rest =>
        rw [hrec] at h
        cases h
        rw [List.map_cons, ← ih rest hrec, ResolveResult.okAddrs]
    | failure e => rw [resolveAll, resolve_catch_err] at h; cases h

/-- The first non-`NXDOMAIN` failure in the domain list aborts the whole
comprehension with that failure. -/
theorem resolveAll_error_at_first_failure (pre : List ResolveResult) (e : String)
    (post : List ResolveResult) (h : ∀ r ∈ pre, r.isFailure = false) :
    resolveAll (pre ++ ResolveResult.failure e :: post) = .error e := by
  induction pre with
  | nil => rfl
  | cons r rs ih =>
    have hr := h r (List.mem_cons_self r rs)
    have hrest := ih (fun x hx => h x (List.mem_cons_of_mem r hx))
    cases r with
    | ok addrs => simp [resolveAll, resolve_catch_err, hrest]
    | nxdomain => simp [resolveAll, resolve_catch_err, hrest]
    | failure e => simp [ResolveResult.isFailure] at hr

/-! #### Claim C2 -/

/-- Claim C2, counterexample: a resolution failure other than
"name does not exist" is not isolated.  With `a.example` resolving to
`1.2.3.4` and a second domain failing with a timeout, `iplist` propagates
the failure instead of returning the other domain's addresses. -/
theorem claim_C2_counterexample :
    iplist [ResolveResult.ok ["1.2.3.4"], ResolveResult.failure "timeout"] = .error "timeout" ∧
      iplist [ResolveResult.ok ["1.2.3.4"], ResolveResult.failure "timeout"] ≠
        .ok ["1.2.3.4"] := by
  constructor
  · rfl
  · decide

/-- Claim C2, amended: a resolution failure other than a "name does not
exist" outcome is **not** isolated: the first such failure aborts
resolution of the remaining domains, and `iplist` propagates it as an
error instead of returning the aggregated addresses of the other
domains. -/
theorem claim_C2_theorem (pre : List ResolveResult) (e : String)
    (post : List ResolveResult) (h : ∀ r ∈ pre, r.isFailure = false) :
    iplist (pre ++ ResolveResult.failure e :: post) = .error e := by
  rw [iplist, resolveAll_error_at_first_failure pre e post h]

/-- Witness for claim C2's amended theorem at a concrete input. -/
theorem claim_C2_witness :
    iplist [ResolveResult.ok ["1.2.3.4"], ResolveResult.failure "timeout",
      ResolveResult.ok ["9.9.9.9"]] = .error "timeout" :=
  claim_C2_theorem [ResolveResult.ok ["1.2.3.4"]] "timeout"
    [ResolveResult.ok ["9.9.9.9"]] (by decide)

/-! #### Claim C7 -/

/-- Claim C7: on a failure-free domain list, a "name does not exist"
(`NXDOMAIN`) outcome contributes the empty list for that domain only
(`ResolveResult.okAddrs .nxdomain = []`), and the whole call returns the
(deduplicated, sorted) aggregation of the successfully resolved domains'
addresses rather than an error. -/
theorem claim_C7_theorem (rs : List ResolveResult)
    (h : ∀ r ∈ rs, r.isFailure = false) :
    ResolveResult.okAddrs .nxdomain = [] ∧
      iplist rs = .ok (pySort ((rs.map ResolveResult.okAddrs).flatten).dedup) := by
  refine ⟨rfl, ?_⟩
  have hstep : iplist rs = .ok (pySort (flatten ((rs.map ResolveResult.okAddrs).map
      (fun l => PyVal.lst (l.map PyVal.str)))).dedup) := by
    rw [iplist, resolveAll_ok_of_no_failure rs h]
  rw [hstep, flatten_map_lst]

/-- Witness for claim C7 at the spec's example: `a.example` resolves to
`1.2.3.4`, `b.invalid` does not exist; the call returns `["1.2.3.4"]`. -/
theorem claim_C7_witness :
    iplist [ResolveResult.ok ["1.2.3.4"], ResolveResult.nxdomain] = .ok ["1.2.3.4"] := by
  have h := claim_C7_theorem [ResolveResult.ok ["1.2.3.4"], ResolveResult.nxdomain]
    (by decide)
  rw [h.2]
  decide

/-! #### Claim C8 -/

/-- Claim C8: whenever `iplist` succeeds, its result is the aggregated
per-domain addresses deduplicated and sorted: every address appears at
most once (`Nodup`), the sequence is in the standard lexicographic string
order, and its members are exactly the addresses contributed by the
input's outcomes. -/
theorem claim_C8_theorem (rs : List ResolveResult) (l : List String)
    (h : iplist rs = .ok l) :
    l.Sorted (· ≤ ·) ∧ l.Nodup ∧
      (∀ a, a ∈ l ↔ ∃ r ∈ rs, a ∈ r.okAddrs) := by
  rw [iplist] at h
  cases hres : resolveAll rs with
  | error e => rw [hres] at h; cases h
  | ok perDomain =>
    rw [hres] at h
    cases h
    have hmap := resolveAll_eq_ok rs perDomain hres
    refine ⟨pySort_sorted _, ?_, ?_⟩
    · exact ((pySort_perm _).nodup_iff).mpr (List.nodup_dedup _)
    · intro a
      rw [(pySort_perm _).mem_iff, List.mem_dedup, flatten_map_lst, hmap,
        List.mem_flatten]
      constructor
      · rintro ⟨lsub, hlsub, ha⟩
        rcases List.mem_map.mp hlsub with ⟨r, hr, rfl⟩
        exact ⟨r, hr, ha⟩
      · rintro ⟨r, hr, ha⟩
        exact ⟨r.okAddrs, List.mem_map.mpr ⟨r, hr, rfl⟩, ha⟩

/-- Witness for claim C8 at the spec's example: two domains resolving to
`5.6.7.8` plus one resolving to `1.1.1.1` give `["1.1.1.1", "5.6.7.8"]`,
sorted and duplicate-free. -/
theorem claim_C8_witness :
    iplist [ResolveResult.ok ["5.6.7.8"], ResolveResult.ok ["5.6.7.8"],
        ResolveResult.ok ["1.1.1.1"]] = .ok ["1.1.1.1", "5.6.7.8"] ∧
      (["1.1.1.1", "5.6.7.8"] : List String).Sorted (· ≤ ·) ∧
      (["1.1.1.1", "5.6.7.8"] : List String).Nodup := by
  have hcall : iplist [ResolveResult.ok ["5.6.7.8"], ResolveResult.ok ["5.6.7.8"],
      ResolveResult.ok ["1.1.1.1"]] = .ok ["1.1.1.1", "5.6.7.8"] := by decide
  have h := claim_C8_theorem _ _ hcall
  exact ⟨hcall, h.1, h.2.1⟩

/-! ### `IPSetHandler` (KernelSetManager)

An `ipset` subprocess invocation is modelled by its argv (a `List String`)
and by an environment `exec : List String → CmdOutcome` giving the exit
status, stdout and stderr the command produced.  `run_ipset_cmd` then
decides, exactly as the source does, whether that outcome is success or a
raised `IPSetError`. -/

/-- Exit status and captured output of one external command
(`p.returncode`, `so`, `se` in the source). -/
structure CmdOutcome where
  returncode : Nat
  stdout : String
  stderr : String

/-- The stderr pattern the source treats as "the set already exists". -/
def already_exists_pattern : String :=
  "set with the same name already exists"

/-- Whether `pat` is a prefix of `s` (character lists). -/
def charsPrefixOf : List Char → List Char → Bool
  | [], _ => true
  | _ :: _, [] => false
  | a :: as, b :: bs => a = b && charsPrefixOf as bs

/-- Whether `pat` occurs anywhere in `s` (character lists). -/
def charsInfixOf (pat : List Char) : List Char → Bool
  | [] => charsPrefixOf pat []
  | c :: rest => charsPrefixOf pat (c :: rest) || charsInfixOf pat rest

/-- Python's `s.find(pat) > -1`: substring containment. -/
def containsSub (s pat : String) : Bool :=
  charsInfixOf pat.data s.data

/-- Source `IPSetHandler.run_ipset_cmd`, as a function of the
command's outcome: a zero exit status is success; a nonzero exit status
with empty stdout (`not so`) and the already-exists pattern in stderr is
tolerated as success; any other nonzero-exit outcome raises
`IPSetError(se)`. -/
def run_ipset_cmd (outcome : CmdOutcome) : Except String Unit :=
  if outcome.returncode ≠ 0 then
    if outcome.stdout = "" ∧ containsSub outcome.stderr already_exists_pattern = true then
      .ok ()
    else
      .error outcome.stderr
  else
    .ok ()

/-- Python's `s.split()` (no separator): split on single spaces, dropping
empty fields.  The strings this is applied to contain only single-space
separators, where this agrees with Python's any-whitespace-run split. -/
def pySplitWs (s : String) : List String :=
  ((pySplitChar ' ' s.data).filter (fun cs => cs ≠ [])).map String.mk

/-- Source `self.create_ipset_args`. -/
def create_ipset_args (ipset_name : String) : String :=
  "create " ++ ipset_name ++ " hash:ip hashsize 4096"

/-- The argv built by `create_ipset`:
`flatten(['ipset', self.create_ipset_args.split()])`. -/
def create_ipset_cmds (ipset_name : String) : List String :=
  flatten [PyVal.str "ipset",
    PyVal.lst ((pySplitWs (create_ipset_args ipset_name)).map PyVal.str)]

/-- Source `IPSetHandler.create_ipset`: run the creation argv and
interpret its outcome through `run_ipset_cmd`. -/
def create_ipset (exec : List String → CmdOutcome) (ipset_name : String) :
    Except String Unit :=
  run_ipset_cmd (exec (create_ipset_cmds ipset_name))

/-- The argv built by `update_ipset` for the flush step:
`flatten(['ipset', 'flush', self.ipset_name])`. -/
def flush_cmds (ipset_name : String) : List String :=
  flatten [PyVal.str "ipset", PyVal.str "flush", PyVal.str ipset_name]

/-- The argv built by `update_ipset` for one add step:
`flatten(['ipset', 'add', self.ipset_name, str(ip)])`. -/
def add_cmds (ipset_name ip : String) : List String :=
  flatten [PyVal.str "ipset", PyVal.str "add", PyVal.str ipset_name, PyVal.str ip]

/-- The argv built by `destroy_ipset`: `['ipset', 'destroy', self.ipset_name]`. -/
def destroy_cmds (ipset_name : String) : List String :=
  ["ipset", "destroy", ipset_name]

/-- Source `IPSetHandler.destroy_ipset`. -/
def destroy_ipset (exec : List String → CmdOutcome) (ipset_name : String) :
    Except String Unit :=
  run_ipset_cmd (exec (destroy_cmds ipset_name))

/-- The mutable state of an `IPSetHandler`: the managed set's name and
`iplist_prev`, the membership most recently pushed to the kernel
(`lastSyncedMembership`). -/
structure IPSetHandler where
  ipset_name : String
  iplist_prev : List String
deriving DecidableEq

/-- Run a sequence of `ipset` invocations in order, stopping at the first
one whose outcome `run_ipset_cmd` rejects.  Returns the overall result and
the trace of argvs actually invoked (a failing command was still
invoked). -/
def runSeq (exec : List String → CmdOutcome) :
    List (List String) → Except String Unit × List (List String)
  | [] => (.ok (), [])
  | c :: cs =>
    match run_ipset_cmd (exec c) with
    | .error e => (.error e, [c])
    | .ok _ => ((runSeq exec cs).1, c :: (runSeq exec cs).2)

/-- Source `IPSetHandler.update_ipset`: sort the desired list in
place; if it differs from `iplist_prev`, flush the set, add every address
individually, and record the new membership in `iplist_prev`; an
`IPSetError` raised by any step propagates, leaving `iplist_prev`
unchanged.  Returns (result, updated handler, trace of invoked argvs). -/
def update_ipset (exec : List String → CmdOutcome) (h : IPSetHandler)
    (iplist : List String) :
    Except String Unit × IPSetHandler × List (List String) :=
  let sorted := pySort iplist
  if sorted ≠ h.iplist_prev then
    match runSeq exec (flush_cmds h.ipset_name :: sorted.map (add_cmds h.ipset_name)) with
    | (.ok _, t) => (.ok (), { h with iplist_prev := sorted }, t)
    | (.error e, t) => (.error e, h, t)
  else
    (.ok (), h, [])

/-- A successful `runSeq` invoked every command of the sequence. -/
theorem runSeq_ok_trace (exec : List String → CmdOutcome) :
    ∀ cs t, runSeq exec cs = (.ok (), t) → t = cs := by
  intro cs
  induction cs with
  | nil => intro t h; cases h; rfl
  | cons c cs ih =>
    intro t h
    rw [runSeq] at h
    cases hc : run_ipset_cmd (exec c) with
    | error e => rw [hc] at h; simp at h
    | ok u =>
      rw [hc] at h
      have h1 := congrArg Prod.fst h
      have h2 := congrArg Prod.snd h
      simp only at h1 h2
      have hr : runSeq exec cs = (.ok (), (runSeq exec cs).2) := by
        rw [← h1]
      rw [← h2, ih _ hr]

/-- A successful `update_ipset` call leaves `iplist_prev` equal to the
sorted desired list (whether or not it mutated the kernel set). -/
theorem update_ipset_ok_prev (exec : List String → CmdOutcome) (h : IPSetHandler)
    (S : List String) (h' : IPSetHandler) (t : List (List String))
    (hcall : update_ipset exec h S = (.ok (), h', t)) :
    h'.iplist_prev = pySort S := by
  simp only [update_ipset] at hcall
  by_cases hif : pySort S ≠ h.iplist_prev
  · rw [if_pos hif] at hcall
    cases hs : runSeq exec (flush_cmds h.ipset_name :: (pySort S).map (add_cmds h.ipset_name)) with
    | mk r tr =>
      rw [hs] at hcall
      cases r with
      | ok u => cases hcall; rfl
      | error e => simp at hcall
  · rw [if_neg hif] at hcall
    cases hcall
    exact not_ne_iff.mp hif |>.symm

/-- If the sorted desired list already equals `iplist_prev`, `update_ipset`
performs no kernel mutation at all: it succeeds with an unchanged handler
and an empty command trace. -/
theorem update_ipset_noop (exec : List String → CmdOutcome) (h : IPSetHandler)
    (S : List String) (heq : pySort S = h.iplist_prev) :
    update_ipset exec h S = (.ok (), h, []) := by
  simp only [update_ipset]
  rw [if_neg (not_not_intro heq)]

/-! #### Claim C4 -/

/-- Claim C4: calling `update_ipset` twice in succession with the same
desired list invokes the flush/add sequence only on the first call.  If
the first call succeeded (returning handler state `h'`), the second call —
under any command environment whatsoever — performs no kernel mutation:
its command trace is empty and the state is unchanged. -/
theorem claim_C4_theorem (exec exec2 : List String → CmdOutcome)
    (h h' : IPSetHandler) (S : List String) (t : List (List String))
    (hcall : update_ipset exec h S = (.ok (), h', t)) :
    update_ipset exec2 h' S = (.ok (), h', []) :=
  update_ipset_noop exec2 h' S (update_ipset_ok_prev exec h S h' t hcall).symm

/-- Witness for claim C4: after a first synchronization of `{1.2.3.4}`
(which flushed and added), the second call with the same list issues no
commands. -/
theorem claim_C4_witness :
    update_ipset (fun _ => CmdOutcome.mk 0 "" "")
      (IPSetHandler.mk "blocky" ["1.2.3.4"]) ["1.2.3.4"] =
      (.ok (), IPSetHandler.mk "blocky" ["1.2.3.4"], []) :=
  claim_C4_theorem (fun _ => CmdOutcome.mk 0 "" "") (fun _ => CmdOutcome.mk 0 "" "")
    (IPSetHandler.mk "blocky" []) (IPSetHandler.mk "blocky" ["1.2.3.4"]) ["1.2.3.4"]
    [["ipset", "flush", "blocky"], ["ipset", "add", "blocky", "1.2.3.4"]]
    (by decide)

/-! #### Claim C5 -/

/-- Claim C5: when the (sorted) desired list differs from `iplist_prev`,
a successful `update_ipset` flushed the set and then added every desired
address individually, in order, and recorded the sorted desired list in
`iplist_prev`; if any underlying command fails, the `IPSetError`
propagates as the call's error and the handler (hence `iplist_prev`) is
left unchanged. -/
theorem claim_C5_theorem (exec : List String → CmdOutcome) (h : IPSetHandler)
    (S : List String) (hne : pySort S ≠ h.iplist_prev) :
    ((update_ipset exec h S).1 = .ok () →
        (update_ipset exec h S).2.1 =
          IPSetHandler.mk h.ipset_name (pySort S) ∧
        (update_ipset exec h S).2.2 =
          flush_cmds h.ipset_name :: (pySort S).map (add_cmds h.ipset_name)) ∧
    (∀ e, (update_ipset exec h S).1 = .error e → (update_ipset exec h S).2.1 = h) := by
  have hmain : update_ipset exec h S =
      (match runSeq exec (flush_cmds h.ipset_name :: (pySort S).map (add_cmds h.ipset_name)) with
       | (.ok _, t) => (.ok (), { h with iplist_prev := pySort S }, t)
       | (.error e, t) => (.error e, h, t)) := by
    simp only [update_ipset]
    rw [if_pos hne]
  cases hs : runSeq exec (flush_cmds h.ipset_name :: (pySort S).map (add_cmds h.ipset_name)) with
  | mk r tr =>
    rw [hs] at hmain
    cases r with
    | ok u =>
      cases u
      have ht := runSeq_ok_trace exec _ _ hs
      rw [hmain]
      exact ⟨fun _ => ⟨rfl, ht⟩, fun e he => Except.noConfusion he⟩
    | error e' =>
      rw [hmain]
      exact ⟨fun hok => Except.noConfusion hok, fun e _ => rfl⟩

/-- Witness for claim C5: syncing `{5.6.7.8, 1.1.1.1}` into an empty-state
handler flushes then adds both addresses in sorted order and records the
sorted membership. -/
theorem claim_C5_witness :
    (update_ipset (fun _ => CmdOutcome.mk 0 "" "") (IPSetHandler.mk "blocky" [])
        ["5.6.7.8", "1.1.1.1"]).1 = .ok () ∧
    (update_ipset (fun _ => CmdOutcome.mk 0 "" "") (IPSetHandler.mk "blocky" [])
        ["5.6.7.8", "1.1.1.1"]).2.1 = IPSetHandler.mk "blocky" ["1.1.1.1", "5.6.7.8"] ∧
    (update_ipset (fun _ => CmdOutcome.mk 0 "" "") (IPSetHandler.mk "blocky" [])
        ["5.6.7.8", "1.1.1.1"]).2.2 =
      [["ipset", "flush", "blocky"], ["ipset", "add", "blocky", "1.1.1.1"],
        ["ipset", "add", "blocky", "5.6.7.8"]] := by
  have h := claim_C5_theorem (fun _ => CmdOutcome.mk 0 "" "")
    (IPSetHandler.mk "blocky" []) ["5.6.7.8", "1.1.1.1"] (by decide)
  have hok : (update_ipset (fun _ => CmdOutcome.mk 0 "" "") (IPSetHandler.mk "blocky" [])
      ["5.6.7.8", "1.1.1.1"]).1 = .ok () := by decide
  obtain ⟨h1, h2⟩ := h.1 hok
  refine ⟨hok, ?_, ?_⟩
  · rw [h1]
    decide
  · rw [h2]
    decide

/-! #### Claim C6 -/

/-- Claim C6, counterexample: the already-exists tolerance additionally
requires empty stdout (`not so` in the source).  A nonzero-exit creation
outcome whose stderr contains the pattern but whose stdout is nonempty
raises `IPSetError` — so a nonzero status with the pattern in stderr alone
does not guarantee success. -/
theorem claim_C6_counterexample :
    (CmdOutcome.mk 1 "x" "Error: set with the same name already exists").returncode ≠ 0 ∧
    containsSub (CmdOutcome.mk 1 "x" "Error: set with the same name already exists").stderr
      already_exists_pattern = true ∧
    create_ipset (fun _ => CmdOutcome.mk 1 "x" "Error: set with the same name already exists")
      "blocky" = .error "Error: set with the same name already exists" := by
  refine ⟨by decide, by decide, by decide⟩

/-- Claim C6, amended: a nonzero-exit creation outcome completes without
raising exactly when its stdout is empty and its stderr contains the
"set with the same name already exists" pattern; every other nonzero-exit
outcome raises `IPSetError` carrying the stderr text. -/
theorem claim_C6_theorem (exec : List String → CmdOutcome) (name : String)
    (hnz : (exec (create_ipset_cmds name)).returncode ≠ 0) :
    (create_ipset exec name = .ok () ↔
      ((exec (create_ipset_cmds name)).stdout = "" ∧
        containsSub (exec (create_ipset_cmds name)).stderr already_exists_pattern = true)) ∧
    (¬ ((exec (create_ipset_cmds name)).stdout = "" ∧
        containsSub (exec (create_ipset_cmds name)).stderr already_exists_pattern = true) →
      create_ipset exec name = .error (exec (create_ipset_cmds name)).stderr) := by
  rw [create_ipset, run_ipset_cmd, if_pos hnz]
  by_cases hcond : (exec (create_ipset_cmds name)).stdout = "" ∧
      containsSub (exec (create_ipset_cmds name)).stderr already_exists_pattern = true
  · rw [if_pos hcond]
    exact ⟨⟨fun _ => hcond, fun _ => rfl⟩, fun hc => absurd hcond hc⟩
  · rw [if_neg hcond]
    exact ⟨⟨fun he => Except.noConfusion he, fun hc => absurd hc hcond⟩, fun _ => rfl⟩

/-- Witness for claim C6's amended theorem: a nonzero-exit creation with
empty stdout and the pattern in stderr completes without raising. -/
theorem claim_C6_witness :
    create_ipset (fun _ => CmdOutcome.mk 1 "" "Error: set with the same name already exists")
      "blocky" = .ok () ∧ (1 : Nat) ≠ 0 := by
  have h := claim_C6_theorem
    (fun _ => CmdOutcome.mk 1 "" "Error: set with the same name already exists") "blocky"
    (by decide)
  exact ⟨h.1.mpr (by decide), by decide⟩

/-! ### `IPTablesHandler` (FilterRuleManager)

A chain is its ordered list of rules; a rule carries its matches, each
match optionally carrying a comment (`m.comment` is `None` on a match
without one, and Python's `None == <str>` is `False`). -/

/-- One iptables match of a rule (`rule.matches` element). -/
structure IptMatch where
  comment : Option String
  match_set : Option (List String)
deriving DecidableEq

/-- One iptables rule of a chain (`match_list` is `rule.matches` in the
source; `matches` is a reserved word in Lean). -/
structure IptRule where
  protocol : Option String
  target : Option String
  match_list : List IptMatch
deriving DecidableEq

/-- Whether a rule carries a match whose comment is exactly the marker
`c` — the source's `filter(lambda m: m.comment == self._comment,
rule.matches)` being nonempty. -/
def hasComment (c : String) (r : IptRule) : Bool :=
  r.match_list.any (fun m => m.comment = some c)

/-- The state of an `IPTablesHandler`: construction parameters, the
chain's rules, and `self.rule` — the handler's identified own rule. -/
structure IPTablesHandler where
  table_name : String
  chain_name : String
  ipset_name : String
  target : String
  chain : List IptRule
  rule : Option IptRule
  rule_pos : Nat
  comment : String
  match_set_flag : String
deriving DecidableEq

/-- Source `IPTablesHandler.__init__` after a successful table and chain lookup:
`_rule_find` scans the chain and records the first rule carrying the
marker comment in `self.rule` (or leaves it `None`). -/
def IPTablesHandler.init (table_name chain_name ipset_name match_set_flag : String)
    (rule_pos : Nat) (comment target : String) (chain : List IptRule) :
    IPTablesHandler :=
  { table_name, chain_name, ipset_name, target, chain,
    rule := chain.find? (hasComment comment), rule_pos, comment, match_set_flag }

/-- The rule `insert_rule` constructs: protocol tcp, the configured
target, a comment match carrying the marker, and a set match binding the
kernel set name with the direction flag. -/
def blockyRule (comment ipset_name match_set_flag target : String) : IptRule :=
  { protocol := some "tcp", target := some target,
    match_list := [IptMatch.mk (some comment) none,
                   IptMatch.mk none (some [ipset_name, match_set_flag])] }

/-- Source `IPTablesHandler.insert_rule`: do nothing when
`self.rule` is already set; otherwise build the marked rule, record it in
`self.rule`, and insert it into the chain at `self.rule_pos`.  (An
out-of-range position — excluded by the startup checks — would raise in
`iptc`; `List.insertIdx` leaves the chain unchanged there instead.) -/
def IPTablesHandler.insert_rule (h : IPTablesHandler) : IPTablesHandler :=
  match h.rule with
  | some _ => h
  | none =>
    let r := blockyRule h.comment h.ipset_name h.match_set_flag h.target
    { h with rule := some r, chain := h.chain.insertIdx h.rule_pos r }

/-- Source `IPTablesHandler.delete_rule`: delete every rule of the
chain carrying the marker comment. -/
def IPTablesHandler.delete_rule (h : IPTablesHandler) : IPTablesHandler :=
  { h with chain := h.chain.filter (fun r => !(hasComment h.comment r)) }

/-- Inserting one element anywhere raises a `countP` by at most one. -/
theorem countP_insertIdx_le {α : Type} (p : α → Bool) (a : α) :
    ∀ (n : Nat) (l : List α), (l.insertIdx n a).countP p ≤ l.countP p + 1 := by
  intro n
  induction n with
  | zero =>
    intro l
    rw [List.insertIdx_zero, List.countP_cons]
    split <;> omega
  | succ n ih =>
    intro l
    cases l with
    | nil =>
      rw [List.insertIdx_succ_nil]
      omega
    | cons b l =>
      rw [List.insertIdx_succ_cons, List.countP_cons, List.countP_cons]
      have := ih l
      omega

/-- The marker invariant: the chain holds at most one rule with the
handler's marker, and when the handler has not identified a rule, the
chain holds none. -/
def MarkerInv (h : IPTablesHandler) : Prop :=
  h.chain.countP (hasComment h.comment) ≤ 1 ∧
    (h.rule = none → h.chain.countP (hasComment h.comment) = 0)

/-- Construction establishes the marker invariant from an at-most-one
chain: `_rule_find` finds a marked rule exactly when one exists. -/
theorem marker_inv_init (table_name chain_name ipset_name match_set_flag : String)
    (rule_pos : Nat) (comment target : String) (chain : List IptRule)
    (hinv : chain.countP (hasComment comment) ≤ 1) :
    MarkerInv (IPTablesHandler.init table_name chain_name ipset_name match_set_flag
      rule_pos comment target chain) := by
  refine ⟨hinv, fun hnone => ?_⟩
  rw [List.countP_eq_zero]
  exact fun r hr => List.find?_eq_none.mp hnone r hr

/-- One `insert_rule` call preserves the marker invariant. -/
theorem marker_inv_step (h : IPTablesHandler) (hinv : MarkerInv h) :
    MarkerInv h.insert_rule := by
  cases hr : h.rule with
  | some r =>
    have : h.insert_rule = h := by simp only [IPTablesHandler.insert_rule, hr]
    rw [this]
    exact hinv
  | none =>
    have hzero := hinv.2 hr
    have hstep : h.insert_rule =
        { h with
          rule := some (blockyRule h.comment h.ipset_name h.match_set_flag h.target),
          chain := h.chain.insertIdx h.rule_pos (blockyRule h.comment h.ipset_name h.match_set_flag h.target) } := by
      simp only [IPTablesHandler.insert_rule, hr]
    rw [hstep]
    constructor
    · show (h.chain.insertIdx h.rule_pos
        (blockyRule h.comment h.ipset_name h.match_set_flag h.target)).countP
          (hasComment h.comment) ≤ 1
      have := countP_insertIdx_le (hasComment h.comment)
        (blockyRule h.comment h.ipset_name h.match_set_flag h.target) h.rule_pos h.chain
      omega
    · intro hcontra
      exact Option.noConfusion hcontra

/-- The call `insert_rule` never changes the handler's marker comment. -/
theorem insert_rule_comment (h : IPTablesHandler) :
    h.insert_rule.comment = h.comment := by
  cases hr : h.rule with
  | some r => simp only [IPTablesHandler.insert_rule, hr]
  | none => simp only [IPTablesHandler.insert_rule, hr]

/-- Iterated insertion never changes the handler's marker comment. -/
theorem iterate_insert_rule_comment (h : IPTablesHandler) (n : Nat) :
    ((IPTablesHandler.insert_rule)^[n] h).comment = h.comment := by
  induction n with
  | zero => rfl
  | succ n ih => rw [Function.iterate_succ_apply', insert_rule_comment, ih]

/-! #### Claim C3 -/

/-- Claim C3: the rule manager identifies its rule by the marker comment
at construction, and calling `insert_rule` any number of times in
succession never yields two rules carrying the marker in the chain —
starting from a chain with at most one marked rule, the chain holds at
most one marked rule at every later point. -/
theorem claim_C3_theorem (table_name chain_name ipset_name match_set_flag : String)
    (rule_pos : Nat) (comment target : String) (chain : List IptRule) (n : Nat)
    (hinv : chain.countP (hasComment comment) ≤ 1) :
    ((IPTablesHandler.insert_rule)^[n]
        (IPTablesHandler.init table_name chain_name ipset_name match_set_flag
          rule_pos comment target chain)).chain.countP (hasComment comment) ≤ 1 := by
  have hall : MarkerInv ((IPTablesHandler.insert_rule)^[n]
      (IPTablesHandler.init table_name chain_name ipset_name match_set_flag
        rule_pos comment target chain)) := by
    induction n with
    | zero =>
      exact marker_inv_init table_name chain_name ipset_name match_set_flag
        rule_pos comment target chain hinv
    | succ n ih =>
      rw [Function.iterate_succ_apply']
      exact marker_inv_step _ ih
  have h1 := hall.1
  rw [iterate_insert_rule_comment
    (IPTablesHandler.init table_name chain_name ipset_name match_set_flag
      rule_pos comment target chain) n] at h1
  exact h1

/-- Witness for claim C3: inserting twice into an initially empty FORWARD
chain leaves at most one marked rule. -/
theorem claim_C3_witness :
    ([] : List IptRule).countP (hasComment "Blocky IPTables Rule") ≤ 1 ∧
      ((IPTablesHandler.insert_rule)^[2]
          (IPTablesHandler.init "FILTER" "FORWARD" "blocky" "src" 0
            "Blocky IPTables Rule" "DROP" [])).chain.countP
        (hasComment "Blocky IPTables Rule") ≤ 1 :=
  ⟨by decide,
    claim_C3_theorem "FILTER" "FORWARD" "blocky" "src" 0
      "Blocky IPTables Rule" "DROP" [] 2 (by decide)⟩

/-! ### `StartupChecks.check_pidfile_process` (PreflightValidator) -/

/-- The process title the daemon sets and expects (`proc_title`,
source line 27; `check_pidfile_process` compares against the same literal
string). -/
def proc_title : String := "blocky.py"

/-- What the pidfile preflight check does. -/
inductive PidCheckResult where
  | proceed
  | killAndProceed (pid : Nat)
  | abort (code : Nat)
  | crash
deriving DecidableEq

/-- The pid-extraction loop of `check_pidfile_process`:
`for line in open(...): pid = line.strip(); if pid: break` — the first
line with a nonempty strip, else the (empty) strip of the last line, else
`None` for an empty file. -/
def extractPid : List String → Option String
  | [] => none
  | [l] => some (pyStrip l)
  | l :: ls => if pyStrip l ≠ "" then some (pyStrip l) else extractPid ls

/-- Python's `int(s)` on a pidfile string: a nonempty digit string parses
to its decimal value; anything else raises `ValueError` (`none` here).
Signed or space-padded forms, which this program never writes to a
pidfile, are not modelled. -/
def pyInt? (s : String) : Option Nat :=
  if s.data ≠ [] ∧ s.data.all Char.isDigit then
    some (s.data.foldl (fun n c => 10 * n + (c.toNat - 48)) 0)
  else
    none

/-- Source `StartupChecks.check_pidfile_process`.  Argument `pidfile` is
`none` when no pidfile exists, otherwise the file's lines; `procs` maps a
pid to the name of the live process owning it (`none` when
`psutil.pid_exists` is false).  Paths raising an exception the code does
not catch (`int(None)` on an empty file; `psutil.Process` on a dead pid,
raised before the `pid_exists` test is consulted) are `crash`. -/
def check_pidfile_process (pidfile : Option (List String))
    (procs : Nat → Option String) : PidCheckResult :=
  match pidfile with
  | none => .proceed
  | some lines =>
    match extractPid lines with
    | none => .crash
    | some s =>
      match pyInt? s with
      | none => .proceed
      | some pid =>
        match procs pid with
        | none => .crash
        | some name =>
          if name = proc_title then .killAndProceed pid
          else .abort 10

/-! #### Claim C9 -/

/-- Claim C9: when the pidfile names a live process, the check kills it
and continues if its recorded name is the expected title `blocky.py`, and
aborts with the nonzero exit code 10 if the name differs. -/
theorem claim_C9_theorem (lines : List String) (procs : Nat → Option String)
    (s : String) (pid : Nat) (name : String)
    (h1 : extractPid lines = some s) (h2 : pyInt? s = some pid)
    (h3 : procs pid = some name) :
    (name = proc_title →
      check_pidfile_process (some lines) procs = .killAndProceed pid) ∧
    (name ≠ proc_title →
      check_pidfile_process (some lines) procs = .abort 10 ∧ (10 : Nat) ≠ 0) := by
  simp only [check_pidfile_process, h1, h2, h3]
  constructor
  · intro hname
    rw [if_pos hname]
  · intro hname
    rw [if_neg hname]
    exact ⟨rfl, by decide⟩

/-- Witness for claim C9: a pidfile naming live process 123 called
`blocky.py` is killed and startup continues; one naming a live `nginx`
process aborts with exit code 10. -/
theorem claim_C9_witness :
    check_pidfile_process (some ["123"])
        (fun p => if p = 123 then some "blocky.py" else none) = .killAndProceed 123 ∧
      check_pidfile_process (some ["123"])
        (fun p => if p = 123 then some "nginx" else none) = .abort 10 := by
  have hmatch := claim_C9_theorem ["123"]
    (fun p => if p = 123 then some "blocky.py" else none) "123" 123 "blocky.py"
    (by decide) (by decide) (by decide)
  have hother := claim_C9_theorem ["123"]
    (fun p => if p = 123 then some "nginx" else none) "123" 123 "nginx"
    (by decide) (by decide) (by decide)
  exact ⟨hmatch.1 rfl, (hother.2 (by decide)).1⟩

/-! ### `BlockManager` and the SIGTERM handler -/

/-- The module-level whitelist kernel set name (source line 29). -/
def whitelist_ipset_name : String := "blocky_local_ip_whitelist"

/-- The settings fields `BlockManager.run` reads (already validated by the
startup checks).  `whitelist_local_ips` is `none` when the setting is
absent from the config file. -/
structure Settings where
  table : String
  chain : String
  ipset : String
  rule_pos : Nat
  whitelist_local_ips : Option String
deriving DecidableEq

/-- The handler identities `BlockManager.run` establishes before entering
the poll loop: the whitelist pair (`local_whitelist_ipset_handler`, the
whitelist rule's marker comment) and the blocklist pair (`ipset_handler`,
the block rule's default marker comment). -/
structure BlockManager where
  local_whitelist_ipset_handler : IPSetHandler
  local_whitelist_iptables_comment : String
  ipset_handler : IPSetHandler
  iptables_handler_comment : String
deriving DecidableEq

/-- The handler setup of `BlockManager.run`: the whitelist set handler on
the fixed whitelist set name, the whitelist rule marked
"Blocky Whitelist IPTables Rule", the blocklist set handler on the
configured set name, and the blocklist rule marked with the default
comment "Blocky IPTables Rule". -/
def BlockManager.setup (s : Settings) : BlockManager :=
  { local_whitelist_ipset_handler := IPSetHandler.mk whitelist_ipset_name [],
    local_whitelist_iptables_comment := "Blocky Whitelist IPTables Rule",
    ipset_handler := IPSetHandler.mk s.ipset [],
    iptables_handler_comment := "Blocky IPTables Rule" }

/-- An externally visible operation of the shutdown path: deleting every
chain rule marked with a comment, destroying a named kernel set, or
exiting the process. -/
inductive SysOp where
  | deleteRule (comment : String)
  | destroyIpset (ipset_name : String)
  | exitProcess (code : Nat)
deriving DecidableEq

/-- Source `sigterm_handler_partial(mgr, signum, frame)`, as the
ordered sequence of operations it performs:
`mgr.iptables_handler.delete_rule()` (the blocklist rule),
`mgr.ipset_handler.destroy_ipset()` (the blocklist set), then
`sys.exit(0)`.  The whitelist handlers are never touched. -/
def sigterm_handler_partial (mgr : BlockManager) : List SysOp :=
  [SysOp.deleteRule mgr.iptables_handler_comment,
   SysOp.destroyIpset mgr.ipset_handler.ipset_name,
   SysOp.exitProcess 0]

/-- The destructive (firewall-mutating) operations of a shutdown trace,
the process exit excluded. -/
def destructiveOps (ops : List SysOp) : List SysOp :=
  ops.filter (fun op =>
    match op with
    | .exitProcess _ => false
    | _ => true)

/-- Modelled from the spec: the four-step teardown sequence the spec
describes for `SHUTTING_DOWN → STOPPED` — delete blocklist rule, destroy
blocklist set, delete whitelist rule, destroy whitelist set. -/
def specTeardownSequence (mgr : BlockManager) : List SysOp :=
  [SysOp.deleteRule mgr.iptables_handler_comment,
   SysOp.destroyIpset mgr.ipset_handler.ipset_name,
   SysOp.deleteRule mgr.local_whitelist_iptables_comment,
   SysOp.destroyIpset mgr.local_whitelist_ipset_handler.ipset_name]

/-! #### Claim C1 -/

/-- Claim C1, counterexample: the SIGTERM handler's destructive operations
are not the spec's four-step reverse-creation teardown — the whitelist
rule deletion and whitelist set destruction never happen. -/
theorem claim_C1_counterexample :
    destructiveOps ( sigterm_handler_partial (BlockManager.setup
        (Settings.mk "filter" "FORWARD" "blocky" 0 none))) ≠
      specTeardownSequence (BlockManager.setup
        (Settings.mk "filter" "FORWARD" "blocky" 0 none)) := by
  decide

/-- Claim C1, amended: on SIGTERM in the running state the handler
performs exactly [delete blocklist rule, destroy blocklist set] and then
exits with success status 0; the whitelist rule and whitelist kernel set
are not removed. -/
theorem claim_C1_theorem (s : Settings) (hdistinct : s.ipset ≠ whitelist_ipset_name) :
    sigterm_handler_partial (BlockManager.setup s) =
      [SysOp.deleteRule "Blocky IPTables Rule", SysOp.destroyIpset s.ipset,
        SysOp.exitProcess 0] ∧
    SysOp.destroyIpset whitelist_ipset_name ∉
      sigterm_handler_partial (BlockManager.setup s) ∧
    SysOp.deleteRule "Blocky Whitelist IPTables Rule" ∉
      sigterm_handler_partial (BlockManager.setup s) := by
  refine ⟨rfl, ?_, ?_⟩
  · intro hmem
    simp only [ sigterm_handler_partial, BlockManager.setup, List.mem_cons,
      List.not_mem_nil, or_false] at hmem
    rcases hmem with h | h | h
    · exact SysOp.noConfusion h
    · exact hdistinct (SysOp.destroyIpset.inj h).symm
    · exact SysOp.noConfusion h
  · intro hmem
    simp only [ sigterm_handler_partial, BlockManager.setup, List.mem_cons,
      List.not_mem_nil, or_false] at hmem
    rcases hmem with h | h | h
    · exact absurd (SysOp.deleteRule.inj h) (by decide)
    · exact SysOp.noConfusion h
    · exact SysOp.noConfusion h

/-- Witness for claim C1's amended theorem at concrete settings. -/
theorem claim_C1_witness :
    sigterm_handler_partial (BlockManager.setup
        (Settings.mk "filter" "FORWARD" "blocky" 0 none)) =
      [SysOp.deleteRule "Blocky IPTables Rule", SysOp.destroyIpset "blocky",
        SysOp.exitProcess 0] ∧
    SysOp.destroyIpset whitelist_ipset_name ∉
      sigterm_handler_partial (BlockManager.setup
        (Settings.mk "filter" "FORWARD" "blocky" 0 none)) := by
  have h := claim_C1_theorem (Settings.mk "filter" "FORWARD" "blocky" 0 none) (by decide)
  exact ⟨h.1, h.2.1⟩

/-! #### Claim C10 -/

/-- The list `BlockManager.run` passes to the whitelist set's
`update_ipset` (source line 472):
`parse_comma_separated(self.settings.get('whitelist_local_ips', ''))`. -/
def whitelist_sync_iplist (s : Settings) : List String :=
  parse_comma_separated (s.whitelist_local_ips.getD "")

/-- On a changed membership, `update_ipset` runs the flush-then-adds
sequence and its outcome decides result, state and trace. -/
theorem update_ipset_run (exec : List String → CmdOutcome) (h : IPSetHandler)
    (S : List String) (hne : pySort S ≠ h.iplist_prev) :
    update_ipset exec h S =
      (match runSeq exec (flush_cmds h.ipset_name :: (pySort S).map (add_cmds h.ipset_name)) with
       | (.ok _, t) => (.ok (), IPSetHandler.mk h.ipset_name (pySort S), t)
       | (.error e, t) => (.error e, h, t)) := by
  simp only [update_ipset]
  rw [if_pos hne]

/-- Claim C10: `parse_comma_separated('')` is `[""]`, not `[]`; hence with
the `whitelist_local_ips` setting absent, `BlockManager.run` synchronizes
the whitelist kernel set with `[""]` — flushing the set and then
attempting to add the empty string as an address — rather than with empty
membership. -/
theorem claim_C10_theorem (s : Settings) (exec : List String → CmdOutcome)
    (habs : s.whitelist_local_ips = none)
    (hflush : run_ipset_cmd (exec (flush_cmds whitelist_ipset_name)) = .ok ()) :
    parse_comma_separated "" = [""] ∧
    whitelist_sync_iplist s = [""] ∧
    (update_ipset exec (IPSetHandler.mk whitelist_ipset_name [])
        (whitelist_sync_iplist s)).2.2 =
      [flush_cmds whitelist_ipset_name, add_cmds whitelist_ipset_name ""] := by
  have h2 : whitelist_sync_iplist s = [""] := by
    rw [whitelist_sync_iplist, habs]
    decide
  refine ⟨by decide, h2, ?_⟩
  rw [h2, update_ipset_run exec (IPSetHandler.mk whitelist_ipset_name []) [""] (by decide)]
  rw [show pySort [""] = [""] from rfl]
  have htail : (runSeq exec [add_cmds whitelist_ipset_name ""]).2 =
      [add_cmds whitelist_ipset_name ""] := by
    cases hadd : run_ipset_cmd (exec (add_cmds whitelist_ipset_name "")) with
    | ok u => cases u; simp only [runSeq, hadd]
    | error e => simp only [runSeq, hadd]
  have hseq : runSeq exec
      [flush_cmds whitelist_ipset_name, add_cmds whitelist_ipset_name ""] =
      ((runSeq exec [add_cmds whitelist_ipset_name ""]).1,
        flush_cmds whitelist_ipset_name ::
          (runSeq exec [add_cmds whitelist_ipset_name ""]).2) := by
    simp only [runSeq, hflush]
  rw [List.map_cons, List.map_nil, hseq, htail]
  cases hfst : (runSeq exec [add_cmds whitelist_ipset_name ""]).1 with
  | ok u => cases u; rfl
  | error e => rfl

/-- Witness for claim C10: with the setting absent and commands
succeeding, the whitelist sync flushes and then adds the empty string. -/
theorem claim_C10_witness :
    parse_comma_separated "" = [""] ∧
    whitelist_sync_iplist (Settings.mk "filter" "FORWARD" "blocky" 0 none) = [""] ∧
    (update_ipset (fun _ => CmdOutcome.mk 0 "" "")
        (IPSetHandler.mk whitelist_ipset_name [])
        (whitelist_sync_iplist (Settings.mk "filter" "FORWARD" "blocky" 0 none))).2.2 =
      [flush_cmds whitelist_ipset_name, add_cmds whitelist_ipset_name ""] :=
  claim_C10_theorem (Settings.mk "filter" "FORWARD" "blocky" 0 none)
    (fun _ => CmdOutcome.mk 0 "" "") rfl (by decide)

end Blocky
